import Mathlib

/-!
Verification of the mini-LinkedIn backend (`src/server.js`).

The server is a single Express file: models `User`, `ConnectionRequest`,
`Job`; an `auth` middleware verifying a JWT bearer token; route handlers
for register, login, user search, connection requests and job application.

Modelling choices, stated once here:
* MongoDB collections become Lean lists held in a `DB` record; Mongo's
  ObjectId generation becomes a `nextId` counter.
* JWTs are symbolic: a token is either `signed id secret` (what `jwt.sign`
  produces) or `malformed`; `jwt.verify` succeeds exactly when the token
  was signed with the verifying secret, returning `none` where the real
  library throws (the middleware catches that throw).
* `bcrypt.hash` becomes a deterministic injective tag function;
  `bcrypt.compareSync` re-hashes and compares, as bcrypt semantics demand.
* HTTP responses are a status code plus a `Json` body; `res.json(x)` is the
  serialization of `x` into `Json`.  Tokens appear in bodies as the opaque
  `Json.tok` value.
* Mongo's `$regex` with option `"i"` is modelled for patterns built from
  literal characters and the wildcard `.` (the fragment the claims
  exercise): `regexSearch` matches the pattern case-insensitively at any
  position of the subject.
-/

/-- Symbolic JSON web token.  `signed id secret` is the value produced by
`jwt.sign({id}, secret)`; `malformed` stands for any string that is not a
well-formed signed token. -/
inductive Token where
  | signed (id : Nat) (secret : String) : Token
  | malformed (raw : String) : Token
deriving DecidableEq

/-- `jwt.sign({ id: userId }, secret)` — no expiry claim, payload is the id. -/
def jwtSign (userId : Nat) (secret : String) : Token :=
  Token.signed userId secret

/-- `jwt.verify(token, secret)`: returns the decoded user id when the
signature verifies, `none` where the real library throws (malformed token
or secret mismatch). -/
def jwtVerify (t : Token) (secret : String) : Option Nat :=
  match t with
  | Token.signed id s => if s = secret then some id else none
  | Token.malformed _ => none

/-- JSON values, the bodies of HTTP responses.  `tok` holds an opaque
session token as it appears inside a response body. -/
inductive Json where
  | null : Json
  | str (s : String) : Json
  | num (n : Nat) : Json
  | tok (t : Token) : Json
  | arr (elems : List Json) : Json
  | obj (fields : List (String × Json)) : Json

/-- Field lookup in a JSON object (first binding wins). -/
def Json.lookup (j : Json) (key : String) : Option Json :=
  match j with
  | Json.obj fields => (fields.find? (fun p => p.1 == key)).map (fun p => p.2)
  | _ => none

/-- The element list of a JSON array (empty for non-arrays). -/
def Json.arrElems (j : Json) : List Json :=
  match j with
  | Json.arr elems => elems
  | _ => []

/-- An HTTP response: `res.status(s).json(body)`. -/
structure HttpResponse where
  status : Nat
  body : Json

/-- `res.json({ message: m })`. -/
def msgJson (m : String) : Json :=
  Json.obj [("message", Json.str m)]

/-- The `User` model: name, unique email, hashed password, bio, skills,
connections (references to other user ids). -/
structure User where
  id : Nat
  name : String
  email : String
  password : String
  bio : String
  skills : List String
  connections : List Nat
deriving DecidableEq

/-- The `ConnectionRequest` model: sender, receiver, status
(default `"pending"`). -/
structure ConnectionRequest where
  sender : Nat
  receiver : Nat
  status : String
deriving DecidableEq

/-- The `Job` model. -/
structure Job where
  id : Nat
  company : Nat
  title : String
  description : String
  location : String
  skillsRequired : List String
  applicants : List Nat
deriving DecidableEq

/-- The document store: one list per collection, plus the id generator. -/
structure DB where
  users : List User
  conns : List ConnectionRequest
  jobs : List Job
  nextId : Nat
deriving DecidableEq

/-- Serialization of a user document by `res.json` — every schema field is
included, the password among them. -/
def userJson (u : User) : Json :=
  Json.obj [("_id", Json.num u.id), ("name", Json.str u.name),
            ("email", Json.str u.email), ("password", Json.str u.password),
            ("bio", Json.str u.bio),
            ("skills", Json.arr (u.skills.map Json.str)),
            ("connections", Json.arr (u.connections.map Json.num))]

/-- Serialization of a connection-request document. -/
def connJson (c : ConnectionRequest) : Json :=
  Json.obj [("sender", Json.num c.sender), ("receiver", Json.num c.receiver),
            ("status", Json.str c.status)]

/-- A user document after `.select("-password")`: the same fields minus the
password. -/
structure PublicUser where
  id : Nat
  name : String
  email : String
  bio : String
  skills : List String
  connections : List Nat
deriving DecidableEq

/-- The `-password` projection. -/
def stripPassword (u : User) : PublicUser :=
  { id := u.id, name := u.name, email := u.email, bio := u.bio,
    skills := u.skills, connections := u.connections }

/-- `bcrypt.hash(pw, 10)`, modelled as a deterministic one-way tag. -/
def bcryptHash (pw : String) : String :=
  "bcrypt$" ++ pw

/-- `bcrypt.compareSync(pw, stored)`. -/
def bcryptCompare (pw stored : String) : Bool :=
  bcryptHash pw == stored

/-- `Model.findById(i)` over a collection. -/
def findById (users : List User) (i : Nat) : Option User :=
  users.find? (fun u => u.id == i)

/-- An inbound HTTP request, as far as the middleware reads it: the
`Authorization` header is either absent or carries a (possibly malformed)
bearer token. -/
structure Request where
  authorization : Option Token

/-- What the `auth` middleware does with a request: reply itself with an
error, or hand the (possibly null) principal to the next stage. -/
inductive AuthOutcome where
  | reject (status : Nat) (message : String) : AuthOutcome
  | proceed (principal : Option PublicUser) : AuthOutcome
deriving DecidableEq

/-- The `auth` middleware of `server.js`:
1. no `Authorization` header → `401 {message: "No token"}`;
2. `jwt.verify` throws → caught → `401 {message: "Invalid token"}`;
3. otherwise look the decoded id up (password projected out), set
   `req.user` to the result — null included — and call `next()`. -/
def auth (req : Request) (secret : String) (db : DB) : AuthOutcome :=
  match req.authorization with
  | none => AuthOutcome.reject 401 "No token"
  | some t =>
    match jwtVerify t secret with
    | none => AuthOutcome.reject 401 "Invalid token"
    | some uid => AuthOutcome.proceed ((findById db.users uid).map stripPassword)

/-- Running the middleware in front of a continuation: on rejection the
response is produced by the middleware and `next` is never applied; on
success the computation is exactly one application of `next` to the
resolved principal. -/
def runAuthWith {α : Type} (req : Request) (secret : String) (db : DB)
    (onReject : Nat → String → α) (next : Option PublicUser → α) : α :=
  match auth req secret db with
  | AuthOutcome.reject s m => onReject s m
  | AuthOutcome.proceed u => next u

/-- A protected route: `app.METHOD(path, auth, handler)`.  The handler
receives `req.user` and the store, and yields a response plus the updated
store. -/
def protect (handler : Option PublicUser → DB → HttpResponse × DB)
    (req : Request) (secret : String) (db : DB) : HttpResponse × DB :=
  runAuthWith req secret db
    (fun s m => (HttpResponse.mk s (msgJson m), db))
    (fun u => handler u db)

/-- `POST /api/auth/user/register`: reject a duplicate email with 400,
otherwise hash the password, create the user, and return a signed token
together with the created document. -/
def register (name email password secret : String) (db : DB) :
    HttpResponse × DB :=
  match db.users.find? (fun u => u.email == email) with
  | some _ => (HttpResponse.mk 400 (msgJson "Email already exists"), db)
  | none =>
    let u : User := { id := db.nextId, name := name, email := email,
                      password := bcryptHash password, bio := "",
                      skills := [], connections := [] }
    let t := jwtSign u.id secret
    (HttpResponse.mk 200 (Json.obj [("token", Json.tok t), ("user", userJson u)]),
     { db with users := db.users ++ [u], nextId := db.nextId + 1 })

/-- `POST /api/auth/user/login`: unknown email → `400 {message: "Invalid
email"}`; password mismatch → `400 {message: "Wrong password"}`; otherwise
a fresh token plus the user document. -/
def login (email password secret : String) (db : DB) : HttpResponse :=
  match db.users.find? (fun u => u.email == email) with
  | none => HttpResponse.mk 400 (msgJson "Invalid email")
  | some u =>
    if bcryptCompare password u.password then
      HttpResponse.mk 200
        (Json.obj [("token", Json.tok (jwtSign u.id secret)), ("user", userJson u)])
    else
      HttpResponse.mk 400 (msgJson "Wrong password")

/-- Case-insensitive character comparison (the `"i"` regex option). -/
def lowerEq (a b : Char) : Bool :=
  a.toLower == b.toLower

/-- One pattern character against one subject character: `.` matches
anything, a literal matches up to case. -/
def charMatch (p c : Char) : Bool :=
  p == '.' || lowerEq p c

/-- Match the whole pattern starting at the head of the subject. -/
def matchHere : List Char → List Char → Bool
  | [], _ => true
  | _ :: _, [] => false
  | p :: ps, c :: cs => charMatch p c && matchHere ps cs

/-- Unanchored regex search: match the pattern at some position of the
subject — the semantics of Mongo `$regex` with option `"i"` for patterns
of literals and `.`. -/
def regexSearch (p : List Char) : List Char → Bool
  | [] => matchHere p []
  | c :: cs => matchHere p (c :: cs) || regexSearch p cs

/-- `GET /api/users/all?q=` — `req.query.q || ""`, then
`User.find({name: {$regex: q, $options: "i"}})`, serialized whole (no
password projection on this route). -/
def usersAll (q : Option String) (db : DB) : HttpResponse :=
  let qv := q.getD ""
  HttpResponse.mk 200
    (Json.arr ((db.users.filter (fun u => regexSearch qv.data u.name.data)).map userJson))

/-- The user-search route as wired behind the middleware (the handler
ignores `req.user` and does not write the store). -/
def usersAllHandler (q : Option String) :
    Option PublicUser → DB → HttpResponse × DB :=
  fun _ db => (usersAll q db, db)

/-- `POST /api/connections/request/:id`: refuse with `400 {message:
"Already sent"}` when a request with the same ordered (sender, receiver)
pair exists — any status; otherwise create a pending request and return
it. -/
def requestConnection (sender receiver : Nat) (db : DB) : HttpResponse × DB :=
  match db.conns.find? (fun c => c.sender == sender && c.receiver == receiver) with
  | some _ => (HttpResponse.mk 400 (msgJson "Already sent"), db)
  | none =>
    let c : ConnectionRequest :=
      { sender := sender, receiver := receiver, status := "pending" }
    (HttpResponse.mk 200 (connJson c), { db with conns := db.conns ++ [c] })

/-- Mongo `$addToSet`: append the element unless already present. -/
def addToSet (l : List Nat) (x : Nat) : List Nat :=
  if l.contains x then l else l ++ [x]

/-- The update `findByIdAndUpdate` performs on each stored job document:
the one whose id matches gets the applicant added as to a set, the others
are untouched. -/
def applyToJob (jobId userId : Nat) (j : Job) : Job :=
  if j.id == jobId then { j with applicants := addToSet j.applicants userId }
  else j

/-- `POST /api/jobs/apply/:id`:
`Job.findByIdAndUpdate(id, {$addToSet: {applicants: userId}})`, then
`{message: "Applied"}` unconditionally. -/
def applyJob (jobId userId : Nat) (db : DB) : HttpResponse × DB :=
  (HttpResponse.mk 200 (msgJson "Applied"),
   { db with jobs := db.jobs.map (applyToJob jobId userId) })

/-- Spec-side predicate (§6 of the spec): the name contains the query as a
case-insensitive substring.  `substrCI q s` is true iff the lowered `q`
occurs contiguously in the lowered `s`. -/
def isPrefixCI : List Char → List Char → Bool
  | [], _ => true
  | _ :: _, [] => false
  | a :: as, b :: bs => lowerEq a b && isPrefixCI as bs

/-- See `isPrefixCI`: case-insensitive substring occurrence. -/
def substrCI (q : List Char) : List Char → Bool
  | [] => isPrefixCI q []
  | c :: cs => isPrefixCI q (c :: cs) || substrCI q cs

/-- The regex metacharacters of JavaScript regular expressions. -/
def regexMetaChars : List Char :=
  ['.', '*', '+', '?', '^', '$', '(', ')', '[', ']', '|', '\\',
   Char.ofNat 123, Char.ofNat 125]

/-- Is the character a regex metacharacter? -/
def isMeta (c : Char) : Bool :=
  regexMetaChars.contains c

/-! ### Helper lemmas -/

/-- On a pattern free of metacharacters, anchored regex matching is
case-insensitive prefix matching. -/
theorem matchHere_eq_isPrefixCI (p : List Char) (h : ∀ c ∈ p, isMeta c = false) :
    ∀ s, matchHere p s = isPrefixCI p s := by
  induction p with
  | nil => intro s; rfl
  | cons a as ih =>
    intro s
    have ha : a ≠ '.' := by
      intro hd
      have := h a (List.mem_cons_self a as)
      rw [hd] at this
      exact absurd this (by decide)
    cases s with
    | nil => rfl
    | cons b bs =>
      have hdot : (a == '.') = false := beq_eq_false_iff_ne.mpr ha
      simp only [matchHere, isPrefixCI, charMatch, hdot, Bool.false_or,
        ih (fun c hc => h c (List.mem_cons_of_mem a hc)) bs]

/-- On a pattern free of metacharacters, unanchored regex search is
case-insensitive substring occurrence. -/
theorem regexSearch_eq_substrCI (p : List Char) (h : ∀ c ∈ p, isMeta c = false) :
    ∀ s, regexSearch p s = substrCI p s := by
  intro s
  induction s with
  | nil => exact matchHere_eq_isPrefixCI p h []
  | cons c cs ih =>
    simp only [regexSearch, substrCI, matchHere_eq_isPrefixCI p h, ih]

/-- Adding the same element to a Mongo set twice is the same as adding it
once. -/
theorem addToSet_idem (l : List Nat) (x : Nat) :
    addToSet (addToSet l x) x = addToSet l x := by
  unfold addToSet
  by_cases hm : x ∈ l
  · simp [hm]
  · simp [hm]

/-- `addToSet` keeps the multiplicity of its element at most one. -/
theorem addToSet_count_le_one (l : List Nat) (x : Nat) (h : l.count x ≤ 1) :
    (addToSet l x).count x ≤ 1 := by
  unfold addToSet
  by_cases hm : x ∈ l
  · simp [hm, h]
  · have h0 : l.count x = 0 := List.count_eq_zero.mpr hm
    simp [hm, List.count_append, h0, List.count_singleton]

/-- A duplicate ordered (sender, receiver) pair — whatever its status —
makes `requestConnection` answer `400 {message: "Already sent"}` and leave
the store untouched. -/
theorem requestConnection_of_exists (A B : Nat) (db : DB)
    (h : ∃ c ∈ db.conns, c.sender = A ∧ c.receiver = B) :
    requestConnection A B db = (HttpResponse.mk 400 (msgJson "Already sent"), db) := by
  obtain ⟨c, hc, h1, h2⟩ := h
  have hsome : (db.conns.find? (fun c => c.sender == A && c.receiver == B)).isSome := by
    rw [List.find?_isSome]
    exact ⟨c, hc, by simp [h1, h2]⟩
  obtain ⟨x, hx⟩ := Option.isSome_iff_exists.mp hsome
  unfold requestConnection
  rw [hx]

/-- With no entity for the ordered pair present, `requestConnection`
creates exactly one pending entity and returns it with status 200. -/
theorem requestConnection_of_fresh (A B : Nat) (db : DB)
    (h : ∀ c ∈ db.conns, ¬(c.sender = A ∧ c.receiver = B)) :
    requestConnection A B db
      = (HttpResponse.mk 200 (connJson ⟨A, B, "pending"⟩),
         { db with conns := db.conns ++ [⟨A, B, "pending"⟩] }) := by
  have hnone : db.conns.find? (fun c => c.sender == A && c.receiver == B) = none := by
    rw [List.find?_eq_none]
    intro c hc
    simpa using h c hc
  unfold requestConnection
  rw [hnone]

/-! ### Claim theorems -/

/-- C1: from a store with no entity for the ordered pair (A, B), the first
`requestConnection A B` succeeds (status 200) and appends exactly one
pending entity; the second identical call answers
`400 {message: "Already sent"}` and leaves the store unchanged; and the
duplicate guard fires whenever an entity with the ordered pair (A, B)
exists, whatever its status. -/
theorem C1_requestConnection_twice (A B : Nat) (db : DB)
    (hfresh : ∀ c ∈ db.conns, ¬(c.sender = A ∧ c.receiver = B)) :
    (requestConnection A B db).1.status = 200 ∧
    (requestConnection A B db).2.conns = db.conns ++ [⟨A, B, "pending"⟩] ∧
    (requestConnection A B (requestConnection A B db).2).1
      = HttpResponse.mk 400 (msgJson "Already sent") ∧
    (requestConnection A B (requestConnection A B db).2).2
      = (requestConnection A B db).2 ∧
    ∀ (db' : DB) (st : String),
      (∃ c ∈ db'.conns, c.sender = A ∧ c.receiver = B ∧ c.status = st) →
      requestConnection A B db'
        = (HttpResponse.mk 400 (msgJson "Already sent"), db') := by
  have h1 := requestConnection_of_fresh A B db hfresh
  have hmem : (⟨A, B, "pending"⟩ : ConnectionRequest)
      ∈ (requestConnection A B db).2.conns := by
    rw [h1]
    exact List.mem_append_right _ (List.mem_singleton.mpr rfl)
  have h2 := requestConnection_of_exists A B (requestConnection A B db).2
    ⟨⟨A, B, "pending"⟩, hmem, rfl, rfl⟩
  refine ⟨by rw [h1], by rw [h1], by rw [h2], by rw [h2], ?_⟩
  intro db' st ⟨c, hc, hs, hr, _⟩
  exact requestConnection_of_exists A B db' ⟨c, hc, hs, hr⟩

/-- C1 witness: the two-call experiment at A = 1, B = 2 on the empty
store. -/
theorem C1_requestConnection_twice_witness :
    (requestConnection 1 2 ⟨[], [], [], 0⟩).1.status = 200 ∧
    (requestConnection 1 2 ⟨[], [], [], 0⟩).2.conns = [⟨1, 2, "pending"⟩] ∧
    (requestConnection 1 2 (requestConnection 1 2 ⟨[], [], [], 0⟩).2).1
      = HttpResponse.mk 400 (msgJson "Already sent") ∧
    (requestConnection 1 2 (requestConnection 1 2 ⟨[], [], [], 0⟩).2).2
      = (requestConnection 1 2 ⟨[], [], [], 0⟩).2 := by
  have h := C1_requestConnection_twice 1 2 ⟨[], [], [], 0⟩ (by simp)
  exact ⟨h.1, h.2.1, h.2.2.1, h.2.2.2.1⟩

/-- C2: a request without an `Authorization` header is rejected by the
middleware with `401 {message: "No token"}`, and the protected route's
handler is never invoked: the response is the same for every handler and
the store is untouched. -/
theorem C2_auth_no_header (req : Request) (secret : String) (db : DB)
    (h : req.authorization = none) :
    auth req secret db = AuthOutcome.reject 401 "No token" ∧
    ∀ handler, protect handler req secret db
      = (HttpResponse.mk 401 (msgJson "No token"), db) := by
  have ha : auth req secret db = AuthOutcome.reject 401 "No token" := by
    unfold auth
    rw [h]
  refine ⟨ha, fun handler => ?_⟩
  unfold protect runAuthWith
  rw [ha]

/-- C2 witness: the header-less request against the empty store, run with
the user-search handler. -/
theorem C2_auth_no_header_witness :
    auth ⟨none⟩ "s" ⟨[], [], [], 0⟩ = AuthOutcome.reject 401 "No token" ∧
    protect (usersAllHandler none) ⟨none⟩ "s" ⟨[], [], [], 0⟩
      = (HttpResponse.mk 401 (msgJson "No token"), ⟨[], [], [], 0⟩) := by
  have h := C2_auth_no_header ⟨none⟩ "s" ⟨[], [], [], 0⟩ rfl
  exact ⟨h.1, h.2 (usersAllHandler none)⟩

/-- C3: a request whose token fails signature verification (malformed, or
signed under a different secret) is rejected with
`401 {message: "Invalid token"}` — the verification failure is absorbed
by the middleware (the total function `auth` returns this response rather
than propagating anything) and the handler is never invoked. -/
theorem C3_auth_invalid_token (req : Request) (secret : String) (db : DB)
    (t : Token) (h : req.authorization = some t)
    (hv : jwtVerify t secret = none) :
    auth req secret db = AuthOutcome.reject 401 "Invalid token" ∧
    ∀ handler, protect handler req secret db
      = (HttpResponse.mk 401 (msgJson "Invalid token"), db) := by
  have ha : auth req secret db = AuthOutcome.reject 401 "Invalid token" := by
    simp [auth, h, hv]
  refine ⟨ha, fun handler => ?_⟩
  unfold protect runAuthWith
  rw [ha]

/-- C3 witness: a token signed under the secret `"other"` and a malformed
token, both verified against the secret `"s"`. -/
theorem C3_auth_invalid_token_witness :
    auth ⟨some (Token.signed 5 "other")⟩ "s" ⟨[], [], [], 0⟩
      = AuthOutcome.reject 401 "Invalid token" ∧
    auth ⟨some (Token.malformed "zzz")⟩ "s" ⟨[], [], [], 0⟩
      = AuthOutcome.reject 401 "Invalid token" := by
  refine ⟨(C3_auth_invalid_token _ "s" _ _ rfl ?_).1,
          (C3_auth_invalid_token _ "s" _ _ rfl ?_).1⟩
  · simp [jwtVerify]
  · rfl

/-- C8: the duplicate guard checks only the ordered (sender, receiver)
pair: when an entity A→B exists and none B→A does, `requestConnection B A`
succeeds and appends a new pending B→A entity. -/
theorem C8_requestConnection_inverse_allowed (A B : Nat) (db : DB)
    (_hAB : ∃ c ∈ db.conns, c.sender = A ∧ c.receiver = B)
    (hBA : ∀ c ∈ db.conns, ¬(c.sender = B ∧ c.receiver = A)) :
    (requestConnection B A db).1.status = 200 ∧
    (requestConnection B A db).2.conns = db.conns ++ [⟨B, A, "pending"⟩] := by
  have h := requestConnection_of_fresh B A db hBA
  exact ⟨by rw [h], by rw [h]⟩

/-- C8 witness: the store holding exactly the pending request 1→2 admits
the inverse request 2→1. -/
theorem C8_requestConnection_inverse_allowed_witness :
    (requestConnection 2 1 ⟨[], [⟨1, 2, "pending"⟩], [], 0⟩).1.status = 200 ∧
    (requestConnection 2 1 ⟨[], [⟨1, 2, "pending"⟩], [], 0⟩).2.conns
      = [⟨1, 2, "pending"⟩, ⟨2, 1, "pending"⟩] := by
  have h := C8_requestConnection_inverse_allowed 1 2 ⟨[], [⟨1, 2, "pending"⟩], [], 0⟩
    ⟨⟨1, 2, "pending"⟩, by simp, rfl, rfl⟩ (by simp)
  exact ⟨h.1, h.2⟩

/-- C9: a token with a valid signature whose decoded id resolves to no
stored user does not make the middleware fail: the principal attached is
null and the continuation is applied — the whole computation is exactly
one application of `next` to `none`, for every continuation. -/
theorem C9_auth_null_principal (req : Request) (secret : String) (db : DB)
    (uid : Nat) (h : req.authorization = some (jwtSign uid secret))
    (hu : findById db.users uid = none) :
    auth req secret db = AuthOutcome.proceed none ∧
    ∀ (α : Type) (onReject : Nat → String → α) (next : Option PublicUser → α),
      runAuthWith req secret db onReject next = next none := by
  have ha : auth req secret db = AuthOutcome.proceed none := by
    unfold auth
    rw [h]
    simp [jwtVerify, jwtSign, hu]
  refine ⟨ha, fun α onReject next => ?_⟩
  unfold runAuthWith
  rw [ha]

/-- C9 witness: a token for the deleted user 7 against the empty store;
counting continuation shows `next` runs (once) and `onReject` does not. -/
theorem C9_auth_null_principal_witness :
    auth ⟨some (jwtSign 7 "s")⟩ "s" ⟨[], [], [], 0⟩ = AuthOutcome.proceed none ∧
    runAuthWith ⟨some (jwtSign 7 "s")⟩ "s" ⟨[], [], [], 0⟩
      (fun _ _ => (0 : Nat)) (fun _ => 1) = 1 := by
  have h := C9_auth_null_principal ⟨some (jwtSign 7 "s")⟩ "s" ⟨[], [], [], 0⟩ 7 rfl rfl
  exact ⟨h.1, h.2 Nat (fun _ _ => 0) (fun _ => 1)⟩

/-- C4: registering an email already in the store answers
`400 {message: "Email already exists"}` and writes nothing; registering a
fresh email succeeds, appends exactly one user record, and the token in
the response verifies back to precisely the id of that record
(`jwtVerify` is a left inverse of `jwtSign` here). -/
theorem C4_register_token_roundtrip (nm em pw secret : String) (db : DB) :
    ((∃ u ∈ db.users, u.email = em) →
      register nm em pw secret db
        = (HttpResponse.mk 400 (msgJson "Email already exists"), db)) ∧
    ((∀ u ∈ db.users, u.email ≠ em) →
      (register nm em pw secret db).1.status = 200 ∧
      (register nm em pw secret db).1.body.lookup "token"
        = some (Json.tok (jwtSign db.nextId secret)) ∧
      jwtVerify (jwtSign db.nextId secret) secret = some db.nextId ∧
      (register nm em pw secret db).2.users
        = db.users ++ [⟨db.nextId, nm, em, bcryptHash pw, "", [], []⟩]) := by
  constructor
  · intro ⟨u, hu, he⟩
    have hsome : (db.users.find? (fun u => u.email == em)).isSome := by
      rw [List.find?_isSome]
      exact ⟨u, hu, by simp [he]⟩
    obtain ⟨x, hx⟩ := Option.isSome_iff_exists.mp hsome
    unfold register
    rw [hx]
  · intro hfresh
    have hnone : db.users.find? (fun u => u.email == em) = none := by
      rw [List.find?_eq_none]
      intro u hu
      simpa using hfresh u hu
    have hreg : register nm em pw secret db
        = (HttpResponse.mk 200
            (Json.obj [("token", Json.tok (jwtSign db.nextId secret)),
                       ("user", userJson ⟨db.nextId, nm, em, bcryptHash pw, "", [], []⟩)]),
           { db with users := db.users ++ [⟨db.nextId, nm, em, bcryptHash pw, "", [], []⟩],
                     nextId := db.nextId + 1 }) := by
      unfold register
      rw [hnone]
    refine ⟨by rw [hreg], by rw [hreg]; rfl, by simp [jwtVerify, jwtSign], by rw [hreg]⟩

/-- C4 witness: the duplicate branch on a one-user store and the success
branch on the empty store. -/
theorem C4_register_token_roundtrip_witness :
    register "b" "a@x" "pw" "s" ⟨[⟨0, "a", "a@x", "h", "", [], []⟩], [], [], 1⟩
      = (HttpResponse.mk 400 (msgJson "Email already exists"),
         ⟨[⟨0, "a", "a@x", "h", "", [], []⟩], [], [], 1⟩) ∧
    (register "alice" "alice@x.com" "pw1" "s" ⟨[], [], [], 0⟩).1.body.lookup "token"
      = some (Json.tok (jwtSign 0 "s")) ∧
    jwtVerify (jwtSign 0 "s") "s" = some 0 := by
  have h1 := (C4_register_token_roundtrip "b" "a@x" "pw" "s"
    ⟨[⟨0, "a", "a@x", "h", "", [], []⟩], [], [], 1⟩).1
    ⟨⟨0, "a", "a@x", "h", "", [], []⟩, by simp, rfl⟩
  have h2 := (C4_register_token_roundtrip "alice" "alice@x.com" "pw1" "s"
    ⟨[], [], [], 0⟩).2 (by simp)
  exact ⟨h1, h2.2.1, h2.2.2.1⟩

/-- C5 counterexample: with only alice (email `"alice@x.com"`, password
`"pw1"`) in the store, an unknown email answers
`{message: "Invalid email"}` while a wrong password answers
`{message: "Wrong password"}` — two observably different bodies, refuting
"the failure response never reveals which case occurred". -/
theorem C5_login_distinguishes_counterexample :
    (login "b@x.com" "pw1" "s"
        ⟨[⟨0, "alice", "alice@x.com", bcryptHash "pw1", "", [], []⟩], [], [], 1⟩).body.lookup
        "message" = some (Json.str "Invalid email") ∧
    (login "alice@x.com" "nope" "s"
        ⟨[⟨0, "alice", "alice@x.com", bcryptHash "pw1", "", [], []⟩], [], [], 1⟩).body.lookup
        "message" = some (Json.str "Wrong password") ∧
    "Invalid email" ≠ "Wrong password" := by
  refine ⟨rfl, rfl, by decide⟩

/-- C5 amended: both failure cases answer HTTP 400, but with distinct
bodies — `{message: "Invalid email"}` for an unknown email and
`{message: "Wrong password"}` for a known email with a non-matching
password — so the response does reveal which case occurred. -/
theorem C5_login_failure_cases (em pw secret : String) (db : DB) :
    ((∀ u ∈ db.users, u.email ≠ em) →
      login em pw secret db = HttpResponse.mk 400 (msgJson "Invalid email")) ∧
    (∀ u, db.users.find? (fun x => x.email == em) = some u →
      bcryptCompare pw u.password = false →
      login em pw secret db = HttpResponse.mk 400 (msgJson "Wrong password")) := by
  constructor
  · intro hfresh
    have hnone : db.users.find? (fun u => u.email == em) = none := by
      rw [List.find?_eq_none]
      intro u hu
      simpa using hfresh u hu
    unfold login
    rw [hnone]
  · intro u hu hpw
    unfold login
    rw [hu]
    simp [hpw]

/-- C5 amended witness: both branches exercised on the one-user store. -/
theorem C5_login_failure_cases_witness :
    login "b@x.com" "pw1" "s"
        ⟨[⟨0, "alice", "alice@x.com", bcryptHash "pw1", "", [], []⟩], [], [], 1⟩
      = HttpResponse.mk 400 (msgJson "Invalid email") ∧
    login "alice@x.com" "nope" "s"
        ⟨[⟨0, "alice", "alice@x.com", bcryptHash "pw1", "", [], []⟩], [], [], 1⟩
      = HttpResponse.mk 400 (msgJson "Wrong password") := by
  refine ⟨(C5_login_failure_cases "b@x.com" "pw1" "s" _).1 (by simp),
          (C5_login_failure_cases "alice@x.com" "nope" "s" _).2
            ⟨0, "alice", "alice@x.com", bcryptHash "pw1", "", [], []⟩ rfl (by decide)⟩

/-- Updating the same job with the same applicant twice equals updating it
once. -/
theorem applyToJob_idem (jobId userId : Nat) (j : Job) :
    applyToJob jobId userId (applyToJob jobId userId j)
      = applyToJob jobId userId j := by
  unfold applyToJob
  by_cases h : j.id = jobId
  · simp [h, addToSet_idem]
  · simp [h]

/-- Spec §8 scenario: the store right after alice registers into the empty
store (secret `"s"`), and the request carrying the token issued to her. -/
def aliceDB : DB := (register "alice" "alice@x.com" "pw1" "s" ⟨[], [], [], 0⟩).2

/-- Alice's authenticated request: the bearer token from registration. -/
def aliceReq : Request := ⟨some (jwtSign 0 "s")⟩

/-- C6 counterexample: in the §8 scenario, the records returned by the
authenticated search `?q=ali` do NOT all lack a `password` field — the
route serializes the stored document whole, so the claim "the password
field is absent from every returned record" is false. -/
theorem C6_password_field_present :
    ((protect (usersAllHandler (some "ali")) aliceReq "s" aliceDB).1.body.arrElems.all
      (fun j => (j.lookup "password").isNone)) = false := by decide

/-- C6 amended: the authenticated search `?q=ali` after registering alice
returns status 200 with exactly the alice record — serialized with all
its fields, the hashed `password` among them. -/
theorem C6_usersAll_returns_alice :
    (protect (usersAllHandler (some "ali")) aliceReq "s" aliceDB).1
      = HttpResponse.mk 200
          (Json.arr [userJson ⟨0, "alice", "alice@x.com", bcryptHash "pw1", "", [], []⟩]) ∧
    (userJson ⟨0, "alice", "alice@x.com", bcryptHash "pw1", "", [], []⟩).lookup "password"
      = some (Json.str (bcryptHash "pw1")) :=
  ⟨rfl, rfl⟩

/-- C7 counterexample: the route passes `q` to the store as a regular
expression, not as a literal substring: for `q = "."` against a store
whose only user is named `"x"`, the response body is not the
serialization of the users whose name contains `"."` as a
case-insensitive substring (the former has one element, the latter
none). -/
theorem C7_regex_differs_from_substring :
    (usersAll (some ".") ⟨[⟨0, "x", "x@x.com", "h", "", [], []⟩], [], [], 1⟩).body
      ≠ Json.arr ((([⟨0, "x", "x@x.com", "h", "", [], []⟩] : List User).filter
          (fun u => substrCI ".".data u.name.data)).map userJson) := by
  intro h
  exact absurd (congrArg (fun j => j.arrElems.length) h) (by decide)

/-- C7 amended: for a query free of regex metacharacters the route does
return exactly the users whose name contains the query as a
case-insensitive substring; in general the query is interpreted as a
regular expression, for which this can fail (see the counterexample). -/
theorem C7_usersAll_literal_substring (q : String) (db : DB)
    (h : ∀ c ∈ q.data, isMeta c = false) :
    usersAll (some q) db = HttpResponse.mk 200
      (Json.arr ((db.users.filter (fun u => substrCI q.data u.name.data)).map userJson)) := by
  have hf : db.users.filter (fun u => regexSearch q.data u.name.data)
      = db.users.filter (fun u => substrCI q.data u.name.data) :=
    List.filter_congr (fun u _ => regexSearch_eq_substrCI q.data h u.name.data)
  simp only [usersAll, Option.getD_some]
  rw [hf]

/-- C7 amended witness: the literal query `"ali"` on the store holding
alice. -/
theorem C7_usersAll_literal_substring_witness :
    (∀ c ∈ "ali".data, isMeta c = false) ∧
    usersAll (some "ali") ⟨[⟨0, "alice", "alice@x.com", "h", "", [], []⟩], [], [], 1⟩
      = HttpResponse.mk 200
          (Json.arr ((([⟨0, "alice", "alice@x.com", "h", "", [], []⟩] : List User).filter
            (fun u => substrCI "ali".data u.name.data)).map userJson)) :=
  ⟨by decide,
   C7_usersAll_literal_substring "ali"
     ⟨[⟨0, "alice", "alice@x.com", "h", "", [], []⟩], [], [], 1⟩ (by decide)⟩

/-- C10: applying to a job always answers `{message: "Applied"}` (also
when the user already applied); a second identical call leaves the store
exactly as after the first; and one call keeps every job's applicant
multiplicity of that user at most one, provided it was so before. -/
theorem C10_applyJob_idempotent (jobId userId : Nat) (db : DB) :
    (applyJob jobId userId db).1 = HttpResponse.mk 200 (msgJson "Applied") ∧
    (applyJob jobId userId (applyJob jobId userId db).2).1
      = HttpResponse.mk 200 (msgJson "Applied") ∧
    (applyJob jobId userId (applyJob jobId userId db).2).2
      = (applyJob jobId userId db).2 ∧
    ((∀ j ∈ db.jobs, j.applicants.count userId ≤ 1) →
      ∀ j ∈ (applyJob jobId userId db).2.jobs, j.applicants.count userId ≤ 1) := by
  refine ⟨rfl, rfl, ?_, ?_⟩
  · simp only [applyJob, List.map_map]
    congr 1
    exact List.map_congr_left (fun j _ => applyToJob_idem jobId userId j)
  · intro hcount j hj
    simp only [applyJob] at hj
    obtain ⟨j0, hj0, rfl⟩ := List.mem_map.mp hj
    unfold applyToJob
    by_cases h : j0.id = jobId
    · simp only [h, beq_self_eq_true, if_true]
      exact addToSet_count_le_one _ _ (hcount j0 hj0)
    · simp only [beq_eq_false_iff_ne.mpr h, Bool.false_eq_true, if_false]
      exact hcount j0 hj0

/-- C10 witness: applying user 5 to job 0 on a one-job store. -/
theorem C10_applyJob_idempotent_witness :
    (applyJob 0 5 ⟨[], [], [⟨0, 1, "t", "d", "l", [], []⟩], 2⟩).1
      = HttpResponse.mk 200 (msgJson "Applied") ∧
    (applyJob 0 5 (applyJob 0 5 ⟨[], [], [⟨0, 1, "t", "d", "l", [], []⟩], 2⟩).2).2
      = (applyJob 0 5 ⟨[], [], [⟨0, 1, "t", "d", "l", [], []⟩], 2⟩).2 ∧
    (⟨0, 1, "t", "d", "l", [], [5]⟩ : Job).applicants.count 5 ≤ 1 := by
  have h := C10_applyJob_idempotent 0 5 ⟨[], [], [⟨0, 1, "t", "d", "l", [], []⟩], 2⟩
  exact ⟨h.1, h.2.2.1, h.2.2.2 (by decide) ⟨0, 1, "t", "d", "l", [], [5]⟩ (by decide)⟩
